import Mathlib

/-!
Shallow embedding of the storage subsystem of the gemini-mcp server
(src/internal/storage/local.go, src/internal/storage/factory.go and the
path resolver in src/main.go), together with models of the standard
library routines the code calls: crypto/sha256, encoding/hex,
path/filepath Join and Clean, the scheme/host fragment of net/url Parse,
and the Go channel close semantics used by the S3 cleanup goroutine.
Bytes are Nat values below 256, 32-bit machine words are Nat with
explicit reduction modulo 2^32, and times and durations are Int ticks
(nanoseconds in the Go code).
-/

namespace GeminiMCP

/-! ## crypto/sha256 model (FIPS 180-4), as called by both Store paths -/

/-- Reduce a Nat to a 32-bit word. -/
def w32 (n : Nat) : Nat := n % 4294967296

/-- Rotate a 32-bit word right by n bits. -/
def rotr32 (x n : Nat) : Nat := w32 ((x >>> n) ||| (x <<< (32 - n)))

/-- Bitwise complement of a 32-bit word. -/
def not32 (x : Nat) : Nat := 4294967295 - w32 x

def bsig0 (x : Nat) : Nat := (rotr32 x 2) ^^^ (rotr32 x 13) ^^^ (rotr32 x 22)

def bsig1 (x : Nat) : Nat := (rotr32 x 6) ^^^ (rotr32 x 11) ^^^ (rotr32 x 25)

def ssig0 (x : Nat) : Nat := (rotr32 x 7) ^^^ (rotr32 x 18) ^^^ (x >>> 3)

def ssig1 (x : Nat) : Nat := (rotr32 x 17) ^^^ (rotr32 x 19) ^^^ (x >>> 10)

def ch32 (x y z : Nat) : Nat := (x &&& y) ^^^ (not32 x &&& z)

def maj32 (x y z : Nat) : Nat := (x &&& y) ^^^ (x &&& z) ^^^ (y &&& z)

/-- The 64 SHA-256 round constants of FIPS 180-4, in decimal. -/
def sha256K : List Nat :=
  [1116352408, 1899447441, 3049323471, 3921009573, 961987163, 1508970993,
   2453635748, 2870763221, 3624381080, 310598401, 607225278, 1426881987,
   1925078388, 2162078206, 2614888103, 3248222580, 3835390401, 4022224774,
   264347078, 604807628, 770255983, 1249150122, 1555081692, 1996064986,
   2554220882, 2821834349, 2952996808, 3210313671, 3336571891, 3584528711,
   113926993, 338241895, 666307205, 773529912, 1294757372, 1396182291,
   1695183700, 1986661051, 2177026350, 2456956037, 2730485921, 2820302411,
   3259730800, 3345764771, 3516065817, 3600352804, 4094571909, 275423344,
   430227734, 506948616, 659060556, 883997877, 958139571, 1322822218,
   1537002063, 1747873779, 1955562222, 2024104815, 2227730452, 2361852424,
   2428436474, 2756734187, 3204031479, 3329325298]

/-- Big-endian 8-byte encoding of a 64-bit length. -/
def be64 (n : Nat) : List Nat :=
  [n / 2^56 % 256, n / 2^48 % 256, n / 2^40 % 256, n / 2^32 % 256,
   n / 2^24 % 256, n / 2^16 % 256, n / 2^8 % 256, n % 256]

/-- Big-endian 4-byte encoding of a 32-bit word. -/
def be32 (n : Nat) : List Nat :=
  [n / 2^24 % 256, n / 2^16 % 256, n / 2^8 % 256, n % 256]

/-- SHA-256 message padding: append 0x80, zeros to 56 mod 64, and the
bit length as 8 big-endian bytes. -/
def sha256Pad (msg : List Nat) : List Nat :=
  let len := msg.length
  let k := (119 - len % 64) % 64
  msg ++ [128] ++ List.replicate k 0 ++ be64 (len * 8)

/-- Split a byte list into 64-byte blocks: cur holds the bytes of the
current block in reverse. -/
def chunks64Aux (cur : List Nat) : List Nat → List (List Nat)
  | [] => if cur = [] then [] else [cur.reverse]
  | b :: rest =>
    if cur.length = 63 then (b :: cur).reverse :: chunks64Aux [] rest
    else chunks64Aux (b :: cur) rest

/-- Split a byte list into 64-byte blocks. -/
def chunks64 (bs : List Nat) : List (List Nat) := chunks64Aux [] bs

/-- Pack bytes into big-endian 32-bit words. -/
def bytesToWordsBE : List Nat → List Nat
  | b0 :: b1 :: b2 :: b3 :: rest =>
      (b0 * 2^24 + b1 * 2^16 + b2 * 2^8 + b3) :: bytesToWordsBE rest
  | _ => []

/-- Extend the 16 block words to the 64-entry message schedule. -/
def sha256Schedule (ws : List Nat) : Array Nat :=
  (List.range 48).foldl
    (fun a _ =>
      let t := a.size
      a.push (w32 (ssig1 (a.getD (t-2) 0) + a.getD (t-7) 0 + ssig0 (a.getD (t-15) 0) + a.getD (t-16) 0)))
    ws.toArray

/-- Working state of the SHA-256 compression function. -/
structure Sha256State where
  a : Nat
  b : Nat
  c : Nat
  d : Nat
  e : Nat
  f : Nat
  g : Nat
  h : Nat
deriving Repr, DecidableEq

/-- One SHA-256 round; kw is the round constant plus the schedule word. -/
def sha256Round (st : Sha256State) (kw : Nat) : Sha256State :=
  let t1 := w32 (st.h + bsig1 st.e + ch32 st.e st.f st.g + kw)
  let t2 := w32 (bsig0 st.a + maj32 st.a st.b st.c)
  { a := w32 (t1 + t2), b := st.a, c := st.b, d := st.c,
    e := w32 (st.d + t1), f := st.e, g := st.f, h := st.g }

/-- Compress one 64-byte block into the running state. -/
def sha256Block (st : Sha256State) (block : List Nat) : Sha256State :=
  let w := sha256Schedule (bytesToWordsBE block)
  let kw := (List.range 64).map (fun t => w32 (sha256K.getD t 0 + w.getD t 0))
  let r := kw.foldl sha256Round st
  { a := w32 (st.a + r.a), b := w32 (st.b + r.b), c := w32 (st.c + r.c), d := w32 (st.d + r.d),
    e := w32 (st.e + r.e), f := w32 (st.f + r.f), g := w32 (st.g + r.g), h := w32 (st.h + r.h) }

/-- Initial SHA-256 hash state (the eight FIPS 180-4 values, decimal). -/
def sha256Init : Sha256State :=
  ⟨1779033703, 3144134277, 1013904242, 2773480762,
   1359893119, 2600822924, 528734635, 1541459225⟩

/-- SHA-256 digest of a byte list, as 32 bytes; models sha256.Sum256. -/
def sha256 (msg : List Nat) : List Nat :=
  let fin := (chunks64 (sha256Pad msg)).foldl sha256Block sha256Init
  be32 fin.a ++ be32 fin.b ++ be32 fin.c ++ be32 fin.d ++
  be32 fin.e ++ be32 fin.f ++ be32 fin.g ++ be32 fin.h

/-! ## encoding/hex model -/

/-- The lowercase digit table hextable of encoding/hex. -/
def hexTable : String := "0123456789abcdef"

/-- Hex digit for a value below 16. -/
def hexDigit (n : Nat) : Char := hexTable.data.getD n ' '

/-- Two lowercase hex characters for one byte. -/
def byteToHex (b : Nat) : List Char := [hexDigit (b / 16), hexDigit (b % 16)]

/-- Models hex.EncodeToString: lowercase hex encoding of a byte list. -/
def hexEncode (bs : List Nat) : String := String.mk (bs.map byteToHex).flatten

/-- Checks that every character of a string is a lowercase hex digit. -/
def isLowercaseHex (s : String) : Bool := s.data.all (fun c => hexTable.data.contains c)

/-! ## ExtensionFromMIME (factory.go), a switch over the MIME type -/

/-- Translation of ExtensionFromMIME: the fixed MIME to extension table. -/
def ExtensionFromMIME (mimeType : String) : String :=
  if mimeType = "image/png" then ".png"
  else if mimeType = "image/jpeg" then ".jpg"
  else if mimeType = "image/webp" then ".webp"
  else if mimeType = "image/gif" then ".gif"
  else if mimeType = "video/mp4" then ".mp4"
  else if mimeType = "video/webm" then ".webm"
  else if mimeType = "application/json" then ".json"
  else ""

/-! ## path/filepath model: Clean and Join for unix separators, as called
by LocalStorage via filepath.Join(baseDir, name) -/

/-- Models strings.HasPrefix (String.startsWith) on the character list. -/
def strHasPrefix (s pre : String) : Bool := pre.data.isPrefixOf s.data

/-- Split a character list at every slash character. -/
def splitSlash : List Char → List (List Char)
  | [] => [[]]
  | c :: rest =>
    if c = '/' then [] :: splitSlash rest
    else
      match splitSlash rest with
      | s :: tail => (c :: s) :: tail
      | [] => [[c]]

/-- Lexical element processing of filepath.Clean: drop empty and dot
elements; a dotdot element pops the previous element, is dropped at the
root, and is kept when a relative path has nothing left to pop. The
accumulator holds the output elements in reverse. -/
def cleanLoop (rooted : Bool) : List (List Char) → List (List Char) → List (List Char)
  | acc, [] => acc.reverse
  | acc, seg :: rest =>
    if seg = [] ∨ seg = ['.'] then cleanLoop rooted acc rest
    else if seg = ['.', '.'] then
      match acc with
      | top :: accTail =>
          if top = ['.', '.'] then cleanLoop rooted (seg :: acc) rest
          else cleanLoop rooted accTail rest
      | [] => if rooted then cleanLoop rooted [] rest else cleanLoop rooted [seg] rest
    else cleanLoop rooted (seg :: acc) rest

/-- Join path elements with slashes. -/
def joinSegs : List (List Char) → List Char
  | [] => []
  | [s] => s
  | s :: rest => s ++ '/' :: joinSegs rest

/-- Models filepath.Clean for unix paths. -/
def filepathClean (path : String) : String :=
  if path = "" then "."
  else
    let rooted := strHasPrefix path "/"
    let segs := cleanLoop rooted [] (splitSlash path.data)
    let out := joinSegs segs
    if rooted then String.mk ('/' :: out)
    else if out = [] then "." else String.mk out

/-- Models filepath.Join on two elements: empty elements are skipped and
the slash-joined result is cleaned. -/
def filepathJoin (a b : String) : String :=
  if a = "" ∧ b = "" then ""
  else if a = "" then filepathClean b
  else if b = "" then filepathClean a
  else filepathClean (a ++ "/" ++ b)

/-! ## Data model: StorageResult (types.go part of the storage package) -/

/-- Result of a successful Store call. Times are Int ticks; expiresAt is
none exactly when the Go field is the nil pointer. -/
structure StorageResult where
  location : String
  objectKey : String
  contentHash : String
  expiresAt : Option Int
  mimeType : String
  size : Nat
deriving Repr, DecidableEq

/-- The cleanup function returned alongside a resolved path: either the
nil function value or a real cleanup action. -/
inductive Cleanup where
  | noCleanup
  | cleanupAction
deriving Repr, DecidableEq

/-! ## Local filesystem model and LocalStorage (local.go) -/

/-- A filesystem is a finite map from paths to byte contents. -/
abbrev FS := List (String × List Nat)

/-- Look up the contents stored at a path. -/
def fsLookup : FS → String → Option (List Nat)
  | [], _ => none
  | (q, d) :: rest, p => if q = p then some d else fsLookup rest p

/-- Remove every entry stored at a path. -/
def fsErase (fs : FS) (p : String) : FS := fs.filter (fun e => !(e.1 == p))

/-- Models os.WriteFile: overwrite the contents at a path. -/
def fsWrite (fs : FS) (p : String) (d : List Nat) : FS := (p, d) :: fsErase fs p

/-- Models os.Remove: fails with a not-exist error when the path is
absent, otherwise removes it. -/
def osRemove (fs : FS) (p : String) : Except String FS :=
  match fsLookup fs p with
  | some _ => .ok (fsErase fs p)
  | none => .error "file does not exist"

/-- Models os.IsNotExist on the errors osRemove can produce. -/
def osIsNotExist (e : String) : Bool := e == "file does not exist"

/-- Translation of the LocalStorage struct. -/
structure LocalStorage where
  baseDir : String
deriving Repr, DecidableEq

/-- Translation of LocalStorage.Store: hash the payload, build the
deterministic filename, write it under the base directory and return the
result with a nil expiry. -/
def localStore (s : LocalStorage) (fs : FS) (data : List Nat) (mimeType pfx : String) :
    FS × StorageResult :=
  let contentHash := hexEncode (sha256 data)
  let ext := ExtensionFromMIME mimeType
  let filename := pfx ++ "_" ++ contentHash.take 16 ++ ext
  let outputPath := filepathJoin s.baseDir filename
  (fsWrite fs outputPath data,
   { location := outputPath, objectKey := filename, contentHash := contentHash,
     expiresAt := none, mimeType := mimeType, size := data.length })

/-- Translation of LocalStorage.Retrieve: join the key onto the base
directory and check existence; the cleanup is a no-op function value. -/
def localRetrieve (s : LocalStorage) (fs : FS) (objectKey : String) :
    Except String (String × Cleanup) :=
  let filePath := filepathJoin s.baseDir objectKey
  match fsLookup fs filePath with
  | some _ => .ok (filePath, Cleanup.cleanupAction)
  | none => .error ("file not found: " ++ objectKey)

/-- Translation of LocalStorage.Delete: remove the joined path and
suppress the not-exist error. -/
def localDelete (s : LocalStorage) (fs : FS) (objectKey : String) : Except String FS :=
  let filePath := filepathJoin s.baseDir objectKey
  match osRemove fs filePath with
  | .ok fs2 => .ok fs2
  | .error e => if osIsNotExist e then .ok fs else .error ("failed to delete file: " ++ e)

/-- Translation of LocalStorage.Close, a no-op. -/
def localClose (_s : LocalStorage) : Option String := none

/-- Translation of LocalStorage.IsRemote. -/
def localIsRemote (_s : LocalStorage) : Bool := false

/-! ## Time model: the observations of time.Time that S3Storage.Store
makes on time.Now().UTC() -/

/-- A UTC instant: ticks for arithmetic and comparison, plus the UTC
calendar date fields that Format("2006/01/02") reads. -/
structure GoTime where
  ticks : Int
  year : Nat
  month : Nat
  day : Nat
deriving Repr, DecidableEq

/-- Zero-padded two-digit rendering, as the 01 and 02 format verbs. -/
def pad2 (n : Nat) : String := if n < 10 then "0" ++ toString n else toString n

/-- Zero-padded four-digit rendering, as the 2006 format verb. -/
def pad4 (n : Nat) : String :=
  if n < 10 then "000" ++ toString n
  else if n < 100 then "00" ++ toString n
  else if n < 1000 then "0" ++ toString n
  else toString n

/-- Models now.Format("2006/01/02") on the UTC date of the instant. -/
def formatDatePath (t : GoTime) : String :=
  pad4 t.year ++ "/" ++ pad2 t.month ++ "/" ++ pad2 t.day

/-! ## Go channel close semantics for the stopCleanup channel -/

/-- State of an unbuffered signalling channel. -/
inductive ChanState where
  | opened
  | closed
deriving Repr, DecidableEq

/-- Models the close builtin: closing an already closed channel is a
runtime panic, modelled as the error branch. -/
def closeChan : ChanState → Except String ChanState
  | .opened => .ok .closed
  | .closed => .error "close of closed channel"

/-- A receive on the stop channel completes without blocking exactly
when the channel has been closed. -/
def recvStopReady : ChanState → Bool
  | .closed => true
  | .opened => false

/-! ## Remote backend model: S3Storage (factory.go) over a bucket state -/

/-- An object listed from the bucket, with the fields the code reads. -/
structure S3Object where
  key : String
  data : List Nat
  contentType : String
  lastModified : Int
deriving Repr, DecidableEq

/-- A bucket is the list of objects it currently holds. -/
abbrev Bucket := List S3Object

/-- Remove every object stored under a key. -/
def bucketErase (b : Bucket) (key : String) : Bucket := b.filter (fun o => !(o.key == key))

/-- Models minio PutObject: overwrite the object at a key; the upload
time becomes its lastModified time. -/
def putObject (b : Bucket) (key : String) (d : List Nat) (ct : String) (now : Int) : Bucket :=
  { key := key, data := d, contentType := ct, lastModified := now } :: bucketErase b key

/-- Models minio RemoveObject. Modelled from the spec: deleting an
absent key succeeds under standard S3 delete semantics, so the call
never fails in this model. -/
def s3RemoveObject (b : Bucket) (key : String) : Except String Bucket :=
  .ok (bucketErase b key)

/-- Models minio PresignedGetObject: a time limited URL for the key. -/
def presignedGetObject (bucket key : String) (ttl : Int) : String :=
  "https://" ++ bucket ++ "/" ++ key ++ "?ttl=" ++ toString ttl

/-- Translation of the S3Storage struct: configuration plus the state of
the stopCleanup channel. -/
structure S3Storage where
  bucket : String
  presignTTL : Int
  objectTTL : Int
  cleanupInterval : Int
  stopCleanup : ChanState
deriving Repr, DecidableEq

/-- Translation of S3Storage.Store: hash the payload, build the
date-partitioned key from the UTC date of the call instant, upload, and
return the presigned location with expiry now plus the presign TTL. -/
def s3Store (s : S3Storage) (b : Bucket) (now : GoTime) (data : List Nat) (mimeType pfx : String) :
    Bucket × StorageResult :=
  let contentHash := hexEncode (sha256 data)
  let datePath := formatDatePath now
  let ext := ExtensionFromMIME mimeType
  let filename := pfx ++ "_" ++ contentHash.take 16 ++ ext
  let objectKey := datePath ++ "/" ++ filename
  let b2 := putObject b objectKey data mimeType now.ticks
  let expiresAt := now.ticks + s.presignTTL
  (b2, { location := presignedGetObject s.bucket objectKey s.presignTTL,
         objectKey := objectKey, contentHash := contentHash,
         expiresAt := some expiresAt, mimeType := mimeType, size := data.length })

/-- Translation of S3Storage.Delete: delegate to RemoveObject and wrap a
failure; absent keys are successes of RemoveObject itself. -/
def s3Delete (_s : S3Storage) (b : Bucket) (objectKey : String) : Except String Bucket :=
  match s3RemoveObject b objectKey with
  | .ok b2 => .ok b2
  | .error e => .error ("failed to delete object: " ++ e)

/-- Translation of S3Storage.Close: close the stopCleanup channel and
return a nil error. The Except layer carries a runtime panic. -/
def s3Close (s : S3Storage) : Except String (S3Storage × Option String) :=
  match closeChan s.stopCleanup with
  | .ok st => .ok ({ s with stopCleanup := st }, none)
  | .error msg => .error msg

/-- Translation of S3Storage.IsRemote. -/
def s3IsRemote (_s : S3Storage) : Bool := true

/-- Age test of cleanupExpiredObjects: now minus lastModified strictly
above the object TTL. -/
def expired (objectTTL now : Int) (o : S3Object) : Bool :=
  decide (now - o.lastModified > objectTTL)

/-- Translation of S3Storage.cleanupExpiredObjects under deletes that
succeed: every listed object whose age strictly exceeds the TTL is
removed; the rest stay. Returns the surviving bucket and the count of
deleted objects. -/
def cleanupExpiredObjects (s : S3Storage) (now : Int) (b : Bucket) : Bucket × Nat :=
  (b.filter (fun o => !(expired s.objectTTL now o)), (b.filter (expired s.objectTTL now)).length)

/-- One iteration of the select loop of startCleanupRoutine: when the
stop channel is receivable the loop returns (second component true),
otherwise a ticker tick runs one cleanup pass. -/
def sweepLoopIter (s : S3Storage) (now : Int) (b : Bucket) : Bucket × Bool :=
  if recvStopReady s.stopCleanup then (b, true)
  else ((cleanupExpiredObjects s now b).1, false)

/-! ## net/url model: the scheme and host extraction that parseEndpoint
relies on through url.Parse -/

/-- Letters, the characters a scheme may start with. -/
def isSchemeAlphaChar (c : Char) : Bool :=
  ('a'.toNat ≤ c.toNat && c.toNat ≤ 'z'.toNat) || ('A'.toNat ≤ c.toNat && c.toNat ≤ 'Z'.toNat)

/-- Digits and plus, minus, dot: allowed inside a scheme but not as its
first character. -/
def isSchemeDigitOrSign (c : Char) : Bool :=
  ('0'.toNat ≤ c.toNat && c.toNat ≤ '9'.toNat) || c == '+' || c == '-' || c == '.'

/-- Outcome of the getScheme scan of net/url. -/
inductive SchemeResult where
  | noScheme
  | errScheme
  | found (scheme rest : List Char)
deriving Repr, DecidableEq

/-- Models the getScheme loop of net/url: scan for a leading
scheme-colon prefix; a leading colon is a parse error; a character that
cannot belong to a scheme means the input has no scheme. -/
def getSchemeAux : List Char → List Char → SchemeResult
  | _, [] => .noScheme
  | acc, c :: rest =>
    if isSchemeAlphaChar c then getSchemeAux (acc ++ [c]) rest
    else if isSchemeDigitOrSign c then
      if acc = [] then .noScheme else getSchemeAux (acc ++ [c]) rest
    else if c = ':' then
      if acc = [] then .errScheme else .found acc rest
    else .noScheme

/-- The authority runs until the first slash, question mark or hash. -/
def takeAuthority (cs : List Char) : List Char :=
  cs.takeWhile (fun c => !(c == '/' || c == '?' || c == '#'))

/-- The host is the part of the authority after the last at sign. -/
def afterLastAt (cs : List Char) : List Char :=
  (cs.reverse.takeWhile (fun c => !(c == '@'))).reverse

/-- Models the fragment of url.Parse that parseEndpoint observes: on
success, the lowercased scheme and the host (empty when the input has no
authority part, e.g. when the part after the colon is opaque). Parse
errors (leading colon; a colon inside the first path segment of a
scheme-less input) give none. Percent decoding and host validation are
not modelled. -/
def goUrlParse (raw : String) : Option (String × String) :=
  match getSchemeAux [] raw.data with
  | .errScheme => none
  | .noScheme =>
    if raw.data.take 2 = ['/', '/'] then
      some ("", String.mk (afterLastAt (takeAuthority (raw.data.drop 2))))
    else if (raw.data.takeWhile (fun c => !(c == '/'))).contains ':' then none
    else some ("", "")
  | .found scheme rest =>
    let schemeL := String.mk (scheme.map Char.toLower)
    if rest.take 2 = ['/', '/'] then
      some (schemeL, String.mk (afterLastAt (takeAuthority (rest.drop 2))))
    else some (schemeL, "")

/-- Translation of parseEndpoint (factory.go): when url.Parse succeeds
and reports a nonempty scheme, TLS is scheme equals https and the host
is the parsed host, falling back to the whole endpoint when that host is
empty; otherwise the endpoint is used as is with the default flag. -/
def parseEndpoint (endpoint : String) (defaultUseSSL : Bool) : String × Bool :=
  match goUrlParse endpoint with
  | some (scheme, parsedHost) =>
    if scheme ≠ "" then
      (if parsedHost = "" then endpoint else parsedHost, scheme == "https")
    else (endpoint, defaultUseSSL)
  | none => (endpoint, defaultUseSSL)

/-- The endpoint embeds a URL scheme in the sense of the specification:
an explicit http or https prefix. -/
def endpointHasURLScheme (e : String) : Bool :=
  strHasPrefix e "http://" || strHasPrefix e "https://"

/-- Remote backend configuration (S3Config in factory.go). -/
structure S3Config where
  endpoint : String
  accessKeyID : String
  secretAccessKey : String
  region : String
  bucket : String
  useSSL : Bool
  presignTTL : Int
  objectTTL : Int
  cleanupInterval : Int
deriving Repr, DecidableEq

/-- Translation of NewS3Storage restricted to its state effects: the
endpoint and secure flag handed to the minio client, and the initial
backend value whose stopCleanup channel is open (the sweep goroutine is
started on it). Bucket probing and client construction are network
effects outside the model. -/
def newS3Storage (cfg : S3Config) : (String × Bool) × S3Storage :=
  (parseEndpoint cfg.endpoint cfg.useSSL,
   { bucket := cfg.bucket, presignTTL := cfg.presignTTL, objectTTL := cfg.objectTTL,
     cleanupInterval := cfg.cleanupInterval, stopCleanup := ChanState.opened })

/-! ## Path resolution: Server.resolveInputPath (main.go) -/

/-- Translation of Server.resolveInputPath. The stat argument is the set
of paths os.Stat finds; retrieve is the Retrieve method of the active
backend; isRemote is its IsRemote answer. The returned cleanup is the
nil function for paths resolved on the local filesystem. -/
def resolveInputPath (isRemote : Bool) (stat : String → Bool)
    (retrieve : String → Except String (String × Cleanup)) (inputPath : String) :
    Except String (String × Cleanup) :=
  if strHasPrefix inputPath "/" then
    if stat inputPath then .ok (inputPath, Cleanup.noCleanup)
    else .error ("local file not found: " ++ inputPath)
  else if isRemote then
    match retrieve inputPath with
    | .ok pc => .ok pc
    | .error e => .error ("failed to retrieve from storage: " ++ e)
  else
    match retrieve inputPath with
    | .ok pc => .ok pc
    | .error _ =>
      if stat inputPath then .ok (inputPath, Cleanup.noCleanup)
      else .error ("file not found: " ++ inputPath)

/-- Whether a Retrieve-shaped call returned successfully. -/
def retrieveSucceeds (r : Except String (String × Cleanup)) : Bool :=
  match r with
  | .ok _ => true
  | .error _ => false

/-! ## Helper lemmas -/

theorem be32_mem_lt (n : Nat) : ∀ x ∈ be32 n, x < 256 := by
  intro x hx
  simp only [be32, List.mem_cons, List.not_mem_nil, or_false] at hx
  rcases hx with rfl | rfl | rfl | rfl <;> exact Nat.mod_lt _ (by norm_num)

theorem sha256_mem_lt (msg : List Nat) : ∀ x ∈ sha256 msg, x < 256 := by
  intro x hx
  simp only [sha256, List.mem_append] at hx
  casesm* _ ∨ _ <;> exact be32_mem_lt _ x (by assumption)

theorem hexDigit_mem (n : Nat) (h : n < 16) : hexTable.data.contains (hexDigit n) = true := by
  interval_cases n <;> decide

theorem hexEncode_lowercase (bs : List Nat) (h : ∀ x ∈ bs, x < 256) :
    isLowercaseHex (hexEncode bs) = true := by
  simp only [isLowercaseHex, hexEncode, List.all_eq_true]
  intro c hc
  have hc2 : c ∈ (bs.map byteToHex).flatten := hc
  rw [List.mem_flatten] at hc2
  obtain ⟨l, hl, hcl⟩ := hc2
  rw [List.mem_map] at hl
  obtain ⟨b, hb, rfl⟩ := hl
  have hblt : b < 256 := h b hb
  simp only [byteToHex, List.mem_cons, List.not_mem_nil, or_false] at hcl
  rcases hcl with rfl | rfl
  · exact hexDigit_mem _ (by omega)
  · exact hexDigit_mem _ (Nat.mod_lt _ (by norm_num))

theorem fsLookup_fsErase (fs : FS) (p : String) : fsLookup (fsErase fs p) p = none := by
  induction fs with
  | nil => rfl
  | cons e rest ih =>
    obtain ⟨q, dd⟩ := e
    by_cases h : q = p
    · simpa [fsErase, List.filter_cons, h] using ih
    · simpa [fsErase, List.filter_cons, h, fsLookup] using ih

set_option maxRecDepth 1000000 in
/-- Anchor: the SHA-256 model reproduces the FIPS 180-4 empty-message
test vector. -/
theorem sha256_empty_vector :
    hexEncode (sha256 []) =
      "e3b0c44298fc1c149afbf4c8996fb92427ae41e4649b934ca495991b7852b855" := by decide

set_option maxRecDepth 1000000 in
/-- Anchor: the SHA-256 model reproduces the FIPS 180-4 abc test
vector. -/
theorem sha256_abc_vector :
    hexEncode (sha256 [97, 98, 99]) =
      "ba7816bf8f01cfea414140de5dae2223b00361a396177a9cb410ff61f20015ad" := by decide

/-! ## Claims -/

/-- C1: On either backend, a successful Store of a payload d returns a
StorageResult whose contentHash is the lowercase hex encoding of the
SHA-256 digest of d, and repeated Store calls with the same d (any
backend state, MIME type, prefix or call time) return the same
contentHash. -/
theorem store_contentHash_sha256
    (ls ls2 : LocalStorage) (fs fs2 : FS) (s3 : S3Storage) (b : Bucket) (now : GoTime)
    (d : List Nat) (m m2 px px2 : String) :
    (localStore ls fs d m px).2.contentHash = hexEncode (sha256 d) ∧
    (s3Store s3 b now d m px).2.contentHash = hexEncode (sha256 d) ∧
    isLowercaseHex (localStore ls fs d m px).2.contentHash = true ∧
    isLowercaseHex (s3Store s3 b now d m px).2.contentHash = true ∧
    (localStore ls fs d m px).2.contentHash = (localStore ls2 fs2 d m2 px2).2.contentHash ∧
    (localStore ls fs d m px).2.contentHash = (s3Store s3 b now d m2 px2).2.contentHash := by
  refine ⟨rfl, rfl, ?_, ?_, rfl, rfl⟩ <;>
    exact hexEncode_lowercase (sha256 d) (sha256_mem_lt d)

/-- C4: A successful remote Store returns an objectKey of the exact form
YYYY/MM/DD/prefix_hash16.ext, where the zero-padded date segments are
the UTC calendar date of the call instant, hash16 is the first 16 hex
characters of the SHA-256 digest of the payload, and the extension is
the mapped one for the MIME type. -/
theorem s3_objectKey_format (s3 : S3Storage) (b : Bucket) (now : GoTime)
    (d : List Nat) (m px : String) :
    (s3Store s3 b now d m px).2.objectKey =
      pad4 now.year ++ "/" ++ pad2 now.month ++ "/" ++ pad2 now.day ++ "/" ++
        px ++ "_" ++ (hexEncode (sha256 d)).take 16 ++ ExtensionFromMIME m := by
  simp only [s3Store, formatDatePath, String.append_assoc]

/-- C5: A successful local Store returns an objectKey of the exact form
prefix_hash16.ext, with hash16 the first 16 hex characters of the
SHA-256 digest, the extension given by the fixed MIME table with every
unknown MIME type mapped to the empty string; two Store calls with
identical bytes, prefix and MIME type produce identical objectKey
values. -/
theorem local_objectKey_format (ls : LocalStorage) (fs fs2 : FS) (d : List Nat)
    (m px : String) :
    (localStore ls fs d m px).2.objectKey =
      px ++ "_" ++ (hexEncode (sha256 d)).take 16 ++ ExtensionFromMIME m ∧
    ExtensionFromMIME "image/png" = ".png" ∧
    ExtensionFromMIME "image/jpeg" = ".jpg" ∧
    ExtensionFromMIME "image/webp" = ".webp" ∧
    ExtensionFromMIME "image/gif" = ".gif" ∧
    ExtensionFromMIME "video/mp4" = ".mp4" ∧
    ExtensionFromMIME "video/webm" = ".webm" ∧
    ExtensionFromMIME "application/json" = ".json" ∧
    (∀ mo : String, mo ≠ "image/png" → mo ≠ "image/jpeg" → mo ≠ "image/webp" →
      mo ≠ "image/gif" → mo ≠ "video/mp4" → mo ≠ "video/webm" →
      mo ≠ "application/json" → ExtensionFromMIME mo = "") ∧
    (localStore ls fs d m px).2.objectKey = (localStore ls fs2 d m px).2.objectKey := by
  refine ⟨rfl, rfl, rfl, rfl, rfl, rfl, rfl, rfl, ?_, rfl⟩
  intro mo h1 h2 h3 h4 h5 h6 h7
  simp [ExtensionFromMIME, h1, h2, h3, h4, h5, h6, h7]

/-- Witness for C5: the unknown MIME type text/plain maps to the empty
extension. -/
theorem local_objectKey_format_witness : ExtensionFromMIME "text/plain" = "" :=
  ((local_objectKey_format ⟨"/out"⟩ [] [] [] "image/png" "gen").2.2.2.2.2.2.2.2.1)
    "text/plain" (by decide) (by decide) (by decide) (by decide) (by decide)
    (by decide) (by decide)

/-- C9: A successful local Store returns expiresAt nil, and a successful
remote Store returns expiresAt equal to the store instant plus the
configured presign TTL. -/
theorem store_expiresAt (ls : LocalStorage) (fs : FS) (s3 : S3Storage) (b : Bucket)
    (now : GoTime) (d : List Nat) (m px : String) :
    (localStore ls fs d m px).2.expiresAt = none ∧
    (s3Store s3 b now d m px).2.expiresAt = some (now.ticks + s3.presignTTL) :=
  ⟨rfl, rfl⟩

/-- C2: In a background sweep tick of the remote backend, a listed
object is deleted exactly when its age (now minus lastModified) strictly
exceeds the configured object TTL, and every object whose age is at most
the TTL survives the tick. -/
theorem sweep_tick_deletes_iff_expired (s3 : S3Storage) (now : Int) (b : Bucket)
    (o : S3Object) (h : o ∈ b) :
    (o ∉ (cleanupExpiredObjects s3 now b).1 ↔ now - o.lastModified > s3.objectTTL) ∧
    (now - o.lastModified ≤ s3.objectTTL → o ∈ (cleanupExpiredObjects s3 now b).1) := by
  have hm : o ∈ (cleanupExpiredObjects s3 now b).1 ↔ ¬(now - o.lastModified > s3.objectTTL) := by
    simp [cleanupExpiredObjects, List.mem_filter, h, expired]
  constructor
  · simp [hm]
    omega
  · intro hle
    rw [hm]
    omega

/-- Witness for C2: with object TTL 10 at instant 100, a listed object
last modified at 50 is deleted by the tick and one last modified at 95
survives it. -/
theorem sweep_tick_witness :
    ((⟨"old", [7], "image/png", 50⟩ : S3Object) ∉
      (cleanupExpiredObjects ⟨"media", 1, 10, 5, ChanState.opened⟩ 100
        [⟨"old", [7], "image/png", 50⟩, ⟨"young", [8], "image/png", 95⟩]).1) ∧
    ((⟨"young", [8], "image/png", 95⟩ : S3Object) ∈
      (cleanupExpiredObjects ⟨"media", 1, 10, 5, ChanState.opened⟩ 100
        [⟨"old", [7], "image/png", 50⟩, ⟨"young", [8], "image/png", 95⟩]).1) := by
  constructor
  · exact ((sweep_tick_deletes_iff_expired ⟨"media", 1, 10, 5, ChanState.opened⟩ 100
      [⟨"old", [7], "image/png", 50⟩, ⟨"young", [8], "image/png", 95⟩]
      ⟨"old", [7], "image/png", 50⟩ (by decide)).1).mpr (by decide)
  · exact (sweep_tick_deletes_iff_expired ⟨"media", 1, 10, 5, ChanState.opened⟩ 100
      [⟨"old", [7], "image/png", 50⟩, ⟨"young", [8], "image/png", 95⟩]
      ⟨"young", [8], "image/png", 95⟩ (by decide)).2 (by decide)

/-- C3: The code violates the claim. The first Close on a freshly
constructed remote backend closes the stop channel and returns a nil
error, and with the channel closed the sweep loop iteration takes the
stop branch and terminates; but a second Close closes an already closed
channel, which is a runtime panic, not a normal return. -/
theorem s3Close_second_call_panics :
    newS3Storage ⟨"ep", "ak", "sk", "r", "media", false, 1, 2, 3⟩ =
      (("ep", false),
       { bucket := "media", presignTTL := 1, objectTTL := 2, cleanupInterval := 3,
         stopCleanup := ChanState.opened }) ∧
    s3Close { bucket := "media", presignTTL := 1, objectTTL := 2, cleanupInterval := 3,
              stopCleanup := ChanState.opened } =
      .ok ({ bucket := "media", presignTTL := 1, objectTTL := 2, cleanupInterval := 3,
             stopCleanup := ChanState.closed }, none) ∧
    sweepLoopIter { bucket := "media", presignTTL := 1, objectTTL := 2, cleanupInterval := 3,
                    stopCleanup := ChanState.closed } 0 [] = ([], true) ∧
    s3Close { bucket := "media", presignTTL := 1, objectTTL := 2, cleanupInterval := 3,
              stopCleanup := ChanState.closed } = .error "close of closed channel" := by
  refine ⟨by decide, rfl, rfl, rfl⟩

/-- C6: Delete is idempotent on both backends: deleting an absent key,
or the same key twice, succeeds and is never an error. -/
theorem delete_idempotent (ls : LocalStorage) (fs : FS) (key : String)
    (s3 : S3Storage) (b : Bucket) :
    (∃ fs2, localDelete ls fs key = .ok fs2) ∧
    (fsLookup fs (filepathJoin ls.baseDir key) = none → localDelete ls fs key = .ok fs) ∧
    (∀ fs2, localDelete ls fs key = .ok fs2 → localDelete ls fs2 key = .ok fs2) ∧
    s3Delete s3 b key = .ok (bucketErase b key) ∧
    (∀ b2, s3Delete s3 b key = .ok b2 → s3Delete s3 b2 key = .ok (bucketErase b2 key)) := by
  refine ⟨?_, ?_, ?_, rfl, fun b2 _ => rfl⟩
  · cases hl : fsLookup fs (filepathJoin ls.baseDir key) with
    | some dd =>
      exact ⟨fsErase fs (filepathJoin ls.baseDir key), by simp [localDelete, osRemove, hl]⟩
    | none => exact ⟨fs, by simp [localDelete, osRemove, hl, osIsNotExist]⟩
  · intro hnone
    simp [localDelete, osRemove, hnone, osIsNotExist]
  · intro fs2 h2
    cases hl : fsLookup fs (filepathJoin ls.baseDir key) with
    | some dd =>
      have hfs2 : fs2 = fsErase fs (filepathJoin ls.baseDir key) := by
        simp [localDelete, osRemove, hl] at h2
        exact h2.symm
      rw [hfs2]
      simp [localDelete, osRemove, fsLookup_fsErase, osIsNotExist]
    | none =>
      have hfs2 : fs2 = fs := by
        simp [localDelete, osRemove, hl, osIsNotExist] at h2
        exact h2.symm
      rw [hfs2]
      simp [localDelete, osRemove, hl, osIsNotExist]

/-- Witness for C6: deleting a key that was never stored on an empty
local filesystem, and twice in a row on the remote backend, succeeds. -/
theorem delete_idempotent_witness :
    localDelete ⟨"/out"⟩ [] "missing.png" = .ok [] ∧
    s3Delete ⟨"media", 1, 2, 3, ChanState.opened⟩
      (bucketErase [⟨"k", [7], "image/png", 0⟩] "k") "k" =
      .ok (bucketErase (bucketErase [⟨"k", [7], "image/png", 0⟩] "k") "k") := by
  constructor
  · exact (delete_idempotent ⟨"/out"⟩ [] "missing.png"
      ⟨"media", 1, 2, 3, ChanState.opened⟩ []).2.1 rfl
  · exact (delete_idempotent ⟨"/out"⟩ [] "k"
      ⟨"media", 1, 2, 3, ChanState.opened⟩ [⟨"k", [7], "image/png", 0⟩]).2.2.2.2
      (bucketErase [⟨"k", [7], "image/png", 0⟩] "k") rfl

/-- C7: An absolute identifier resolves to itself with a nil cleanup
when the file exists and fails as not found otherwise, independently of
the storage backend (it is never reinterpreted as an object key); a
relative identifier on the local backend falls back to a relative path
check when Retrieve fails; on the remote backend a failed Retrieve of a
relative identifier is a hard failure with no local fallback. -/
theorem resolveInputPath_spec (isR : Bool) (stat : String → Bool)
    (r1 r2 : String → Except String (String × Cleanup)) (p : String)
    (pc : String × Cleanup) (e : String) :
    (strHasPrefix p "/" = true → stat p = true →
        resolveInputPath isR stat r1 p = .ok (p, Cleanup.noCleanup)) ∧
    (strHasPrefix p "/" = true → stat p = false →
        resolveInputPath isR stat r1 p = .error ("local file not found: " ++ p)) ∧
    (strHasPrefix p "/" = true →
        resolveInputPath isR stat r1 p = resolveInputPath isR stat r2 p) ∧
    (strHasPrefix p "/" = false → r1 p = .error e → stat p = true →
        resolveInputPath false stat r1 p = .ok (p, Cleanup.noCleanup)) ∧
    (strHasPrefix p "/" = false → r1 p = .error e → stat p = false →
        resolveInputPath false stat r1 p = .error ("file not found: " ++ p)) ∧
    (strHasPrefix p "/" = false → r1 p = .error e →
        resolveInputPath true stat r1 p = .error ("failed to retrieve from storage: " ++ e)) ∧
    (strHasPrefix p "/" = false → r1 p = .ok pc →
        resolveInputPath isR stat r1 p = .ok pc) := by
  refine ⟨?_, ?_, ?_, ?_, ?_, ?_, ?_⟩ <;> intro h1
  · intro h2
    simp [resolveInputPath, h1, h2]
  · intro h2
    simp [resolveInputPath, h1, h2]
  · simp [resolveInputPath, h1]
  · intro h2 h3
    simp [resolveInputPath, h1, h2, h3]
  · intro h2 h3
    simp [resolveInputPath, h1, h2, h3]
  · intro h2
    simp [resolveInputPath, h1, h2]
  · intro h2
    cases isR <;> simp [resolveInputPath, h1, h2]

/-- Witness for C7: an existing absolute path resolves to itself with a
nil cleanup, and a failed remote retrieval of a relative identifier is a
hard failure even when a matching relative local path exists. -/
theorem resolveInputPath_witness :
    resolveInputPath false (fun s => s == "/abs/img.png") (fun _ => .error "no such key")
      "/abs/img.png" = .ok ("/abs/img.png", Cleanup.noCleanup) ∧
    resolveInputPath true (fun _ => true) (fun _ => .error "no such key")
      "rel/img.png" = .error ("failed to retrieve from storage: " ++ "no such key") := by
  constructor
  · exact (resolveInputPath_spec false (fun s => s == "/abs/img.png")
      (fun _ => .error "no such key") (fun _ => .error "no such key") "/abs/img.png"
      ("x", Cleanup.noCleanup) "no such key").1 (by decide) (by decide)
  · exact (resolveInputPath_spec true (fun _ => true)
      (fun _ => .error "no such key") (fun _ => .error "no such key") "rel/img.png"
      ("x", Cleanup.noCleanup) "no such key").2.2.2.2.2.1 (by decide) rfl

/-- C8 counterexample: the endpoint minio.local:9000 embeds no URL
scheme in the sense of the claim, yet parseEndpoint with the explicit
TLS flag set to true returns TLS off rather than the flag unchanged:
url.Parse reads the leading minio.local as a scheme. -/
theorem parseEndpoint_bare_hostport_overrides_flag :
    endpointHasURLScheme "minio.local:9000" = false ∧
    parseEndpoint "minio.local:9000" true = ("minio.local:9000", false) ∧
    (parseEndpoint "minio.local:9000" true).2 ≠ true := by
  exact ⟨by decide, by decide, by decide⟩

/-- C8 amended: TLS is inferred from the parsed scheme whenever
url.Parse reports a nonempty one, which covers http and https endpoints
as claimed but also treats a bare letter-initial host:port as a scheme
and forces TLS to scheme equals https there; the explicitly configured
flag is used unchanged only when the endpoint yields no scheme at all or
fails URL parsing, e.g. a digit-initial host:port such as an IP address,
or a bare hostname without a port. -/
theorem parseEndpoint_tls_inference (e : String) (flag : Bool) (scheme host : String) :
    (goUrlParse e = some (scheme, host) → scheme ≠ "" →
        (parseEndpoint e flag).2 = (scheme == "https")) ∧
    (goUrlParse e = some ("", host) → (parseEndpoint e flag).2 = flag) ∧
    (goUrlParse e = none → parseEndpoint e flag = (e, flag)) ∧
    parseEndpoint "http://media.example.com:9000" flag = ("media.example.com:9000", false) ∧
    parseEndpoint "https://media.example.com" flag = ("media.example.com", true) ∧
    parseEndpoint "127.0.0.1:9000" flag = ("127.0.0.1:9000", flag) := by
  refine ⟨?_, ?_, ?_, ?_, ?_, ?_⟩
  · intro hp hs
    simp [parseEndpoint, hp, hs]
  · intro hp
    simp [parseEndpoint, hp]
  · intro hp
    simp [parseEndpoint, hp]
  · cases flag <;> decide
  · cases flag <;> decide
  · cases flag <;> decide

/-- Witness for C8 amended: an https endpoint turns TLS on from the
scheme; a scheme-less bare hostname and an unparsable endpoint keep the
configured flag. -/
theorem parseEndpoint_tls_inference_witness :
    (parseEndpoint "https://media.example.com" false).2 = ("https" == "https") ∧
    (parseEndpoint "localhost" true).2 = true ∧
    parseEndpoint ":9000" true = (":9000", true) := by
  refine ⟨?_, ?_, ?_⟩
  · exact (parseEndpoint_tls_inference "https://media.example.com" false
      "https" "media.example.com").1 (by decide) (by decide)
  · exact (parseEndpoint_tls_inference "localhost" true "" "").2.1 (by decide)
  · exact (parseEndpoint_tls_inference ":9000" true "x" "y").2.2.1 (by decide)

/-- C10: The local backend Retrieve and Delete operate on the plain join
of the base directory and the object key with no containment check: a
retrieval succeeds exactly when the joined path exists, a delete always
succeeds and erases exactly the joined path, and for the key
../../etc/passwd under base directory /data/storage the joined path is
/etc/passwd, which lies outside the base directory, is returned by
Retrieve and is removed by Delete. -/
theorem local_paths_escape_base (ls : LocalStorage) (fs : FS) (key : String) :
    retrieveSucceeds (localRetrieve ls fs key) =
      (fsLookup fs (filepathJoin ls.baseDir key)).isSome ∧
    localDelete ls fs key =
      .ok (if (fsLookup fs (filepathJoin ls.baseDir key)).isSome then
             fsErase fs (filepathJoin ls.baseDir key) else fs) ∧
    filepathJoin "/data/storage" "../../etc/passwd" = "/etc/passwd" ∧
    strHasPrefix "/etc/passwd" "/data/storage" = false ∧
    localRetrieve ⟨"/data/storage"⟩ [("/etc/passwd", [42])] "../../etc/passwd" =
      .ok ("/etc/passwd", Cleanup.cleanupAction) ∧
    localDelete ⟨"/data/storage"⟩ [("/etc/passwd", [42])] "../../etc/passwd" = .ok [] := by
  refine ⟨?_, ?_, by decide, by decide, rfl, rfl⟩
  · cases hl : fsLookup fs (filepathJoin ls.baseDir key) <;>
      simp [localRetrieve, retrieveSucceeds, hl]
  · cases hl : fsLookup fs (filepathJoin ls.baseDir key) <;>
      simp [localDelete, osRemove, osIsNotExist, hl]

end GeminiMCP
